import Mathlib

/-!
Verification development for the pySBC2 Steel Battalion controller driver.

Shallow embedding of the core components (LED codec, axis decoder, LED toggle
mode, macro zone dispatch, scripted key steps, vessel lifecycle models, the
bounded input event queue, and the sandboxed expression evaluator), translated
from `sbc_driver.py`, `macro_engine.py`, `vessel_models.py` and
`input_matrix.py`, together with theorems about the specified properties.
-/

set_option maxRecDepth 100000
set_option maxHeartbeats 1000000

namespace PySBC

/-! ### LED codec (`sbc_driver.py`, `SBCDriver`)

`raw_led_data` is the 22-byte outbound LED report (`bytearray(22)`), and
`led_state` is the per-id stored intensity dictionary, modelled as a total
function defaulting to 0 (matching `led_state.get(led_id, 0)`). -/

structure DriverState where
  raw_led_data : List Nat
  led_state : Int → Nat

def initDriver : DriverState :=
  { raw_led_data := List.replicate 22 0, led_state := fun _ => 0 }

/-- `SBCDriver._clamp_intensity`: clamp to `[INTENSITY_MIN, INTENSITY_MAX] = [0, 15]`. -/
def clamp_intensity (value : Int) : Int :=
  if value < 0 then 0
  else if 15 < value then 15
  else value

/-- `SBCDriver.set_led` (the state mutation; the optional USB send is external).
Ids in `LED_ID_UNUSED = {34}` or outside `[LED_ID_MIN, LED_ID_MAX] = [4, 41]`
return without touching any state. -/
def set_led (st : DriverState) (led_id intensity : Int) : DriverState :=
  if led_id = 34 ∨ led_id < 4 ∨ 41 < led_id then st
  else
    let capped := (clamp_intensity intensity).toNat
    let n := led_id.toNat
    let hex_pos := n % 2
    let byte_pos := (n - hex_pos) / 2
    let old := st.raw_led_data.getD byte_pos 0
    let masked := old &&& (if hex_pos = 1 then 0x0F else 0xF0)
    let newByte := masked + capped * (if hex_pos = 1 then 0x10 else 0x01)
    { raw_led_data := st.raw_led_data.set byte_pos newByte,
      led_state := fun j => if j = led_id then capped else st.led_state j }

/-- `SBCDriver.set_all_leds`: iterate `led_id` over `range(LED_ID_MIN, LED_ID_MAX + 1)`,
skipping `LED_ID_UNUSED`, applying `set_led` each time. -/
def set_all_leds (st : DriverState) (intensity : Int) : DriverState :=
  (List.range' 4 38).foldl
    (fun s n => if (n : Int) = 34 then s else set_led s (n : Int) intensity) st

/-- Nibble read-back of the raw LED report at the position addressed by a LED
id; the decode direction of the spec's encode/decode round trip
(`hex_pos = led_id % 2`, `byte_pos = (led_id - hex_pos) / 2`, high nibble when
`hex_pos = 1`, low nibble otherwise). -/
def read_nibble (buf : List Nat) (led_id : Int) : Nat :=
  let n := led_id.toNat
  let hex_pos := n % 2
  let byte_pos := (n - hex_pos) / 2
  if hex_pos = 1 then buf.getD byte_pos 0 / 16 else buf.getD byte_pos 0 % 16

/-- Valid LED ids: `[4, 41]` excluding the unused id `34`. -/
def ValidLedId (led_id : Int) : Prop :=
  4 ≤ led_id ∧ led_id ≤ 41 ∧ led_id ≠ 34

instance : DecidablePred ValidLedId := fun id =>
  inferInstanceAs (Decidable (4 ≤ id ∧ id ≤ 41 ∧ id ≠ 34))

/-! Small byte-level facts used to reason about nibble packing. -/

theorem byte_nibble_facts :
    ∀ b < 256, b &&& 15 = b % 16 ∧ b &&& 240 = 16 * (b / 16) := by decide

theorem pack_facts (old c : Nat) (hold : old < 256) (hc : c ≤ 15) :
    ((old &&& 240) + c) % 16 = c ∧
    ((old &&& 240) + c) / 16 = old / 16 ∧
    (old &&& 240) + c < 256 ∧
    ((old &&& 15) + c * 16) / 16 = c ∧
    ((old &&& 15) + c * 16) % 16 = old % 16 ∧
    (old &&& 15) + c * 16 < 256 := by
  obtain ⟨h1, h2⟩ := byte_nibble_facts old hold
  constructor
  · omega
  constructor
  · omega
  constructor
  · omega
  constructor
  · omega
  constructor
  · omega
  · omega

theorem clamp_intensity_range (value : Int) :
    0 ≤ clamp_intensity value ∧ clamp_intensity value ≤ 15 := by
  unfold clamp_intensity
  split <;> [omega; (split <;> omega)]

theorem clamp_intensity_eq_self (value : Int) (h0 : 0 ≤ value) (h15 : value ≤ 15) :
    clamp_intensity value = value := by
  unfold clamp_intensity
  split <;> [omega; (split <;> omega)]

/-! ### Axis decoding (`sbc_driver.py`, `SBCDriver._axis_value` /
`SBCDriver._signed_axis_value`)

`hi` is `buf[first_index]`, `lo` is `buf[second_index]`, both bytes of the
raw HID report. -/

/-- `SBCDriver._axis_value`: unsigned 10-bit axis `((hi << 2) | (lo >> 6)) & 0x3FF`. -/
def axis_value (hi lo : Nat) : Nat :=
  ((hi <<< 2) ||| (lo >>> 6)) &&& 0x3FF

/-- `SBCDriver._signed_axis_value`: the same 10-bit extraction, sign-extended with
`temp |= 0xFC00` when `buf[first_index] >= 128`, then reinterpreted as a 16-bit
two's complement value (`temp - 0x10000 if temp & 0x8000 else temp`). -/
def signed_axis_value (hi lo : Nat) : Int :=
  let temp0 := ((hi <<< 2) ||| (lo >>> 6)) &&& 0x3FF
  let temp1 := if 128 ≤ hi then temp0 ||| 0xFC00 else temp0
  if temp1 &&& 0x8000 ≠ 0 then (temp1 : Int) - 0x10000 else (temp1 : Int)

theorem signed_axis_value_cases :
    ∀ hi < 256, ∀ d < 4,
      signed_axis_value hi (64 * d) =
        if 128 ≤ hi then (axis_value hi (64 * d) : Int) - 1024
        else (axis_value hi (64 * d) : Int) := by decide

theorem shiftRight6_factor (lo : Nat) : lo >>> 6 = (64 * (lo >>> 6)) >>> 6 := by
  simp [Nat.shiftRight_eq_div_pow]

theorem axis_value_shift_eq (hi lo : Nat) :
    axis_value hi lo = axis_value hi (64 * (lo >>> 6)) := by
  unfold axis_value
  rw [← shiftRight6_factor]

theorem signed_axis_value_shift_eq (hi lo : Nat) :
    signed_axis_value hi lo = signed_axis_value hi (64 * (lo >>> 6)) := by
  unfold signed_axis_value
  rw [← shiftRight6_factor]

/-! ### LED codec lemmas -/

theorem getD_lt_of_forall (l : List Nat) (h : ∀ b ∈ l, b < 256) (i : Nat) :
    l.getD i 0 < 256 := by
  rw [List.getD_eq_getElem?_getD]
  cases hx : l[i]? with
  | none => simp
  | some v =>
    simpa using h v (List.getElem?_mem hx)

theorem set_led_invalid (st : DriverState) (led_id intensity : Int)
    (h : led_id = 34 ∨ led_id < 4 ∨ 41 < led_id) :
    set_led st led_id intensity = st := by
  unfold set_led
  rw [if_pos h]

theorem valid_not_guard {led_id : Int} (h : ValidLedId led_id) :
    ¬(led_id = 34 ∨ led_id < 4 ∨ 41 < led_id) := by
  obtain ⟨h1, h2, h3⟩ := h
  push_neg
  exact ⟨h3, by omega, by omega⟩

theorem set_led_raw_valid (st : DriverState) (led_id intensity : Int)
    (h : ValidLedId led_id) :
    (set_led st led_id intensity).raw_led_data =
      st.raw_led_data.set ((led_id.toNat - led_id.toNat % 2) / 2)
        ((st.raw_led_data.getD ((led_id.toNat - led_id.toNat % 2) / 2) 0 &&&
            (if led_id.toNat % 2 = 1 then 0x0F else 0xF0)) +
          (clamp_intensity intensity).toNat *
            (if led_id.toNat % 2 = 1 then 0x10 else 0x01)) := by
  unfold set_led
  rw [if_neg (valid_not_guard h)]

theorem set_led_state_valid (st : DriverState) (led_id intensity : Int)
    (h : ValidLedId led_id) (j : Int) :
    (set_led st led_id intensity).led_state j =
      if j = led_id then (clamp_intensity intensity).toNat else st.led_state j := by
  unfold set_led
  rw [if_neg (valid_not_guard h)]

theorem valid_byte_pos_lt (n : Nat) (h4 : 4 ≤ n) (h41 : n ≤ 41) :
    (n - n % 2) / 2 < 22 := by omega

theorem read_nibble_eq (buf : List Nat) (led_id : Int) :
    read_nibble buf led_id =
      if led_id.toNat % 2 = 1 then buf.getD ((led_id.toNat - led_id.toNat % 2) / 2) 0 / 16
      else buf.getD ((led_id.toNat - led_id.toNat % 2) / 2) 0 % 16 := rfl

theorem getD_set_self_of_lt (l : List Nat) (i v : Nat) (h : i < l.length) :
    (l.set i v).getD i 0 = v := by
  rw [List.getD_eq_getElem?_getD, List.getElem?_set_self h, Option.getD_some]

theorem getD_set_ne (l : List Nat) (i j v : Nat) (h : i ≠ j) :
    (l.set i v).getD j 0 = l.getD j 0 := by
  rw [List.getD_eq_getElem?_getD, List.getElem?_set_ne h, ← List.getD_eq_getElem?_getD]

/-- Reading back the nibble just written by a valid `set_led` yields the clamped
intensity, on any 22-byte buffer of genuine bytes. -/
theorem read_nibble_set_led_self (st : DriverState) (led_id intensity : Int)
    (hlen : st.raw_led_data.length = 22)
    (hbytes : ∀ b ∈ st.raw_led_data, b < 256)
    (h : ValidLedId led_id) :
    read_nibble (set_led st led_id intensity).raw_led_data led_id =
      (clamp_intensity intensity).toNat := by
  obtain ⟨h4, h41, h34⟩ := h
  have hn4 : 4 ≤ led_id.toNat := by omega
  have hn41 : led_id.toNat ≤ 41 := by omega
  have hbplt : (led_id.toNat - led_id.toNat % 2) / 2 < 22 := by omega
  have holdlt : st.raw_led_data.getD ((led_id.toNat - led_id.toNat % 2) / 2) 0 < 256 :=
    getD_lt_of_forall _ hbytes _
  have hcle : (clamp_intensity intensity).toNat ≤ 15 := by
    have := clamp_intensity_range intensity
    omega
  rw [set_led_raw_valid st led_id intensity ⟨h4, h41, h34⟩, read_nibble_eq]
  obtain ⟨q15, q240⟩ := byte_nibble_facts
    (st.raw_led_data.getD ((led_id.toNat - led_id.toNat % 2) / 2) 0) holdlt
  rcases Nat.mod_two_eq_zero_or_one led_id.toNat with hp | hp
  · have hcond : ¬(led_id.toNat % 2 = 1) := by omega
    simp only [if_neg hcond]
    rw [getD_set_self_of_lt _ _ _ (by omega), q240]
    omega
  · simp only [if_pos hp]
    rw [getD_set_self_of_lt _ _ _ (by omega), q15]
    omega

/-- A valid `set_led` leaves the nibble of every other id (in `[4,41]`, the
unused id 34 included) unchanged. -/
theorem read_nibble_set_led_other (st : DriverState) (led_id intensity : Int)
    (hlen : st.raw_led_data.length = 22)
    (hbytes : ∀ b ∈ st.raw_led_data, b < 256)
    (h : ValidLedId led_id) (id2 : Int)
    (h2a : 4 ≤ id2) (h2b : id2 ≤ 41) (hne : id2 ≠ led_id) :
    read_nibble (set_led st led_id intensity).raw_led_data id2 =
      read_nibble st.raw_led_data id2 := by
  obtain ⟨h4, h41, h34⟩ := h
  have hn4 : 4 ≤ led_id.toNat := by omega
  have hn41 : led_id.toNat ≤ 41 := by omega
  have hm4 : 4 ≤ id2.toNat := by omega
  have hm41 : id2.toNat ≤ 41 := by omega
  have hnm : id2.toNat ≠ led_id.toNat := by omega
  have hbplt : (led_id.toNat - led_id.toNat % 2) / 2 < 22 := by omega
  have holdlt : st.raw_led_data.getD ((led_id.toNat - led_id.toNat % 2) / 2) 0 < 256 :=
    getD_lt_of_forall _ hbytes _
  have hcle : (clamp_intensity intensity).toNat ≤ 15 := by
    have := clamp_intensity_range intensity
    omega
  rw [set_led_raw_valid st led_id intensity ⟨h4, h41, h34⟩, read_nibble_eq,
    read_nibble_eq]
  obtain ⟨q15, q240⟩ := byte_nibble_facts
    (st.raw_led_data.getD ((led_id.toNat - led_id.toNat % 2) / 2) 0) holdlt
  by_cases hbb : (id2.toNat - id2.toNat % 2) / 2 = (led_id.toNat - led_id.toNat % 2) / 2
  · -- same byte, opposite nibble
    have hpar : id2.toNat % 2 ≠ led_id.toNat % 2 := by omega
    rcases Nat.mod_two_eq_zero_or_one led_id.toNat with hp | hp
    · have hcn : ¬(led_id.toNat % 2 = 1) := by omega
      have hcm : id2.toNat % 2 = 1 := by omega
      simp only [if_neg hcn, if_pos hcm]
      rw [hbb, getD_set_self_of_lt _ _ _ (by omega), q240]
      omega
    · have hcm : ¬(id2.toNat % 2 = 1) := by omega
      simp only [if_pos hp, if_neg hcm]
      rw [hbb, getD_set_self_of_lt _ _ _ (by omega), q15]
      omega
  · -- different byte: untouched
    rw [getD_set_ne _ _ _ _ (fun hcontra => hbb hcontra.symm)]

/-! ### Driver LED invariant -/

/-- State invariant of the LED subsystem: a true 22-byte buffer, clamped stored
intensities, nibble/state agreement on every valid id, and a clear nibble at
the unused id 34. -/
def DriverInv (st : DriverState) : Prop :=
  st.raw_led_data.length = 22 ∧
  (∀ b ∈ st.raw_led_data, b < 256) ∧
  (∀ j : Int, st.led_state j ≤ 15) ∧
  (∀ id : Int, ValidLedId id → read_nibble st.raw_led_data id = st.led_state id) ∧
  read_nibble st.raw_led_data 34 = 0

theorem driverInv_init : DriverInv initDriver := by
  refine ⟨by simp [initDriver], ?_, ?_, ?_, ?_⟩
  · intro b hb
    rw [List.eq_of_mem_replicate hb]
    omega
  · intro j
    simp [initDriver]
  · intro id hid
    obtain ⟨h4, h41, h34⟩ := hid
    simp only [initDriver, read_nibble_eq]
    rw [List.getD_eq_getElem?_getD, List.getElem?_replicate_of_lt (by omega)]
    split <;> rfl
  · simp only [initDriver, read_nibble_eq]
    rw [List.getD_eq_getElem?_getD, List.getElem?_replicate_of_lt (by omega)]
    rfl

theorem set_led_preserves_length (st : DriverState) (led_id intensity : Int) :
    (set_led st led_id intensity).raw_led_data.length = st.raw_led_data.length := by
  unfold set_led
  split
  · rfl
  · simp

theorem set_led_preserves_bytes (st : DriverState) (led_id intensity : Int)
    (hbytes : ∀ b ∈ st.raw_led_data, b < 256) :
    ∀ b ∈ (set_led st led_id intensity).raw_led_data, b < 256 := by
  unfold set_led
  split
  · exact hbytes
  · intro b hb
    rcases List.mem_or_eq_of_mem_set hb with hmem | heq
    · exact hbytes b hmem
    · have holdlt : st.raw_led_data.getD
          ((led_id.toNat - led_id.toNat % 2) / 2) 0 < 256 :=
        getD_lt_of_forall _ hbytes _
      have hcle : (clamp_intensity intensity).toNat ≤ 15 := by
        have := clamp_intensity_range intensity
        omega
      obtain ⟨q15, q240⟩ := byte_nibble_facts
        (st.raw_led_data.getD ((led_id.toNat - led_id.toNat % 2) / 2) 0) holdlt
      subst heq
      rcases Nat.mod_two_eq_zero_or_one led_id.toNat with hp | hp
      · have hcond : ¬(led_id.toNat % 2 = 1) := by omega
        simp only [if_neg hcond]
        omega
      · simp only [if_pos hp]
        omega

theorem set_led_preserves_inv (st : DriverState) (led_id intensity : Int)
    (h : DriverInv st) : DriverInv (set_led st led_id intensity) := by
  obtain ⟨hlen, hbytes, hstate, hcorr, h34⟩ := h
  by_cases hval : ValidLedId led_id
  · refine ⟨?_, set_led_preserves_bytes st led_id intensity hbytes, ?_, ?_, ?_⟩
    · rw [set_led_preserves_length, hlen]
    · intro j
      rw [set_led_state_valid st led_id intensity hval]
      split
      · have := clamp_intensity_range intensity
        omega
      · exact hstate j
    · intro id2 hid2
      rw [set_led_state_valid st led_id intensity hval]
      by_cases heq : id2 = led_id
      · rw [if_pos heq, heq]
        exact read_nibble_set_led_self st led_id intensity hlen hbytes hval
      · rw [if_neg heq,
          read_nibble_set_led_other st led_id intensity hlen hbytes hval id2
            hid2.1 hid2.2.1 heq]
        exact hcorr id2 hid2
    · rw [read_nibble_set_led_other st led_id intensity hlen hbytes hval 34
        (by omega) (by omega) (fun hcontra => hval.2.2 hcontra.symm)]
      exact h34
  · have hguard : led_id = 34 ∨ led_id < 4 ∨ 41 < led_id := by
      by_contra hcontra
      push_neg at hcontra
      exact hval ⟨by omega, by omega, hcontra.1⟩
    rw [set_led_invalid st led_id intensity hguard]
    exact ⟨hlen, hbytes, hstate, hcorr, h34⟩

theorem foldl_preserves_driverInv {α : Type} (f : DriverState → α → DriverState)
    (hf : ∀ s a, DriverInv s → DriverInv (f s a)) :
    ∀ (l : List α) (st : DriverState), DriverInv st → DriverInv (l.foldl f st)
  | [], _, h => h
  | a :: t, st, h => foldl_preserves_driverInv f hf t (f st a) (hf st a h)

theorem set_all_leds_preserves_inv (st : DriverState) (intensity : Int)
    (h : DriverInv st) : DriverInv (set_all_leds st intensity) := by
  unfold set_all_leds
  refine foldl_preserves_driverInv _ ?_ _ _ h
  intro s a hs
  split
  · exact hs
  · exact set_led_preserves_inv s a intensity hs

/-- One LED mutation of the public LED interface. -/
inductive LedOp where
  | single (led_id intensity : Int)
  | overall (intensity : Int)

def applyLedOp (st : DriverState) : LedOp → DriverState
  | .single led_id intensity => set_led st led_id intensity
  | .overall intensity => set_all_leds st intensity

def applyLedOps (ops : List LedOp) (st : DriverState) : DriverState :=
  ops.foldl applyLedOp st

theorem applyLedOps_preserves_inv (ops : List LedOp) (st : DriverState)
    (h : DriverInv st) : DriverInv (applyLedOps ops st) := by
  unfold applyLedOps
  refine foldl_preserves_driverInv _ ?_ _ _ h
  intro s o hs
  cases o with
  | single led_id intensity => exact set_led_preserves_inv s led_id intensity hs
  | overall intensity => exact set_all_leds_preserves_inv s intensity hs

/-! ### Toggle LED mode (`sbc_driver.py`, `SBCDriver.handle_button_leds`,
`mode == "toggle"` branch)

On a press edge the new intensity is `MIN_LIGHT_INTENSITY = 0` when the stored
intensity is positive and `MAX_LIGHT_INTENSITY = 15` otherwise, written through
`set_led`. -/

def toggle_press_edge (st : DriverState) (led_id : Int) : DriverState :=
  set_led st led_id (if st.led_state led_id > 0 then 0 else 15)

theorem toggle_press_edge_state (st : DriverState) (led_id : Int)
    (hval : ValidLedId led_id) :
    (toggle_press_edge st led_id).led_state led_id =
      if st.led_state led_id > 0 then 0 else 15 := by
  unfold toggle_press_edge
  rw [set_led_state_valid st led_id _ hval, if_pos rfl]
  split
  · rfl
  · rfl

theorem toggle_press_edge_state_other (st : DriverState) (led_id : Int)
    (hval : ¬ ValidLedId led_id) :
    (toggle_press_edge st led_id).led_state led_id = st.led_state led_id := by
  unfold toggle_press_edge
  have hguard : led_id = 34 ∨ led_id < 4 ∨ 41 < led_id := by
    by_contra hcontra
    push_neg at hcontra
    exact hval ⟨by omega, by omega, hcontra.1⟩
  rw [set_led_invalid st led_id _ hguard]

theorem toggle_press_edge_twice (st : DriverState) (led_id : Int)
    (h : st.led_state led_id = 0 ∨ st.led_state led_id = 15) :
    (toggle_press_edge (toggle_press_edge st led_id) led_id).led_state led_id =
      st.led_state led_id := by
  by_cases hval : ValidLedId led_id
  · rw [toggle_press_edge_state _ _ hval, toggle_press_edge_state _ _ hval]
    rcases h with h0 | h15
    · rw [h0]
      norm_num
    · rw [h15]
      norm_num
  · rw [toggle_press_edge_state_other _ _ hval, toggle_press_edge_state_other _ _ hval]

/-! ### Claim theorems for the LED codec and toggle mode -/

/-- Claim C3: for every LED id in `[4,41]` excluding 34 and intensity in
`[0,15]`, `set_led` stores the intensity in the nibble selected by
`hex_pos = led_id % 2`, `byte_pos = (led_id - hex_pos) / 2`, so reading that
nibble back yields the intensity; an id of 34 or outside `[4,41]` leaves the
output buffer unchanged; out-of-range intensities are clamped to `[0,15]`
before packing. -/
theorem c3_set_led_roundtrip (st : DriverState) (led_id intensity : Int)
    (hlen : st.raw_led_data.length = 22)
    (hbytes : ∀ b ∈ st.raw_led_data, b < 256) :
    (ValidLedId led_id → 0 ≤ intensity → intensity ≤ 15 →
      read_nibble (set_led st led_id intensity).raw_led_data led_id = intensity.toNat) ∧
    ((led_id = 34 ∨ led_id < 4 ∨ 41 < led_id) →
      (set_led st led_id intensity).raw_led_data = st.raw_led_data) ∧
    (ValidLedId led_id →
      read_nibble (set_led st led_id intensity).raw_led_data led_id =
        (clamp_intensity intensity).toNat) := by
  refine ⟨?_, ?_, ?_⟩
  · intro hv h0 h15
    rw [read_nibble_set_led_self st led_id intensity hlen hbytes hv,
      clamp_intensity_eq_self intensity h0 h15]
  · intro hg
    rw [set_led_invalid st led_id intensity hg]
  · intro hv
    exact read_nibble_set_led_self st led_id intensity hlen hbytes hv

/-- Witness for claim C3, at id 7 (high nibble) with intensity 9 and at the
rejected id 34. -/
theorem c3_set_led_roundtrip_witness :
    read_nibble (set_led initDriver 7 9).raw_led_data 7 = 9 ∧
    (set_led initDriver 34 5).raw_led_data = initDriver.raw_led_data := by
  constructor
  · exact (c3_set_led_roundtrip initDriver 7 9 (by decide) (by decide)).1
      (by decide) (by decide) (by decide)
  · exact (c3_set_led_roundtrip initDriver 34 5 (by decide) (by decide)).2.1
      (Or.inl rfl)

/-- Claim C4: for every byte pair, the signed axis decoder returns the unsigned
10-bit value minus 1024 when the high byte is at least 128, and the unsigned
10-bit value unchanged otherwise. -/
theorem c4_signed_axis_decode (hi lo : Nat) (hhi : hi < 256) (hlo : lo < 256) :
    signed_axis_value hi lo =
      if 128 ≤ hi then (axis_value hi lo : Int) - 1024
      else (axis_value hi lo : Int) := by
  have hd : lo >>> 6 < 4 := by
    rw [Nat.shiftRight_eq_div_pow]
    omega
  rw [signed_axis_value_shift_eq hi lo, axis_value_shift_eq hi lo]
  exact signed_axis_value_cases hi hhi (lo >>> 6) hd

/-- Witness for claim C4 at the spec's example inputs `hi=200,lo=0` and
`hi=50,lo=0`. -/
theorem c4_signed_axis_decode_witness :
    signed_axis_value 200 0 = (axis_value 200 0 : Int) - 1024 ∧
    signed_axis_value 50 0 = (axis_value 50 0 : Int) := by
  constructor
  · have h := c4_signed_axis_decode 200 0 (by norm_num) (by norm_num)
    rw [h, if_pos (by norm_num : (128 : Nat) ≤ 200)]
  · have h := c4_signed_axis_decode 50 0 (by norm_num) (by norm_num)
    rw [h, if_neg (by norm_num : ¬((128 : Nat) ≤ 50))]

/-- Counterexample to claim C5 as stated: with a stored intensity of 8 written
through `set_led`, two consecutive press edges end at intensity 15, not at the
original 8. -/
theorem c5_toggle_counterexample :
    (set_led initDriver 5 8).led_state 5 = 8 ∧
    (toggle_press_edge (toggle_press_edge (set_led initDriver 5 8) 5) 5).led_state 5 = 15 ∧
    (toggle_press_edge (toggle_press_edge (set_led initDriver 5 8) 5) 5).led_state 5 ≠
      (set_led initDriver 5 8).led_state 5 := by
  refine ⟨by decide, by decide, by decide⟩

/-- Claim C5 (amended): for a stored intensity the toggle itself produces, 0 or
15, any even number of press edges on the control's LED returns the stored
intensity to its original value (two edges being the even count 2·1). -/
theorem c5_toggle_even_edges (st : DriverState) (led_id : Int) (n : Nat)
    (h : st.led_state led_id = 0 ∨ st.led_state led_id = 15) :
    ((fun s => toggle_press_edge s led_id)^[2 * n] st).led_state led_id =
      st.led_state led_id := by
  induction n generalizing st with
  | zero => rfl
  | succ m ih =>
    have h2 : 2 * (m + 1) = 2 * m + 2 := by ring
    rw [h2, Function.iterate_add_apply]
    have hstep :
        ((fun s => toggle_press_edge s led_id)^[2] st).led_state led_id =
          st.led_state led_id := by
      show (toggle_press_edge (toggle_press_edge st led_id) led_id).led_state led_id = _
      exact toggle_press_edge_twice st led_id h
    rw [ih _ (by rw [hstep]; exact h), hstep]

/-- Witness for the amended claim C5 at LED id 5 from intensity 0 with two
press edges. -/
theorem c5_toggle_even_edges_witness :
    (initDriver.led_state 5 = 0 ∨ initDriver.led_state 5 = 15) ∧
    ((fun s => toggle_press_edge s 5)^[2 * 1] initDriver).led_state 5 =
      initDriver.led_state 5 :=
  ⟨Or.inl rfl, c5_toggle_even_edges initDriver 5 1 (Or.inl rfl)⟩

/-- Claim C10: after any sequence of `set_led` / `set_all_leds` calls with
arbitrary integer ids and intensities, every stored LED-state value is within
`[0,15]`, the nibble of the raw LED buffer addressed by each valid id equals
the stored state for that id, and the nibble addressed by the excluded id 34
(low nibble of byte 17) remains 0. -/
theorem c10_led_state_invariant (ops : List LedOp) :
    (∀ j : Int, (applyLedOps ops initDriver).led_state j ≤ 15) ∧
    (∀ id : Int, ValidLedId id →
      read_nibble (applyLedOps ops initDriver).raw_led_data id =
        (applyLedOps ops initDriver).led_state id) ∧
    read_nibble (applyLedOps ops initDriver).raw_led_data 34 = 0 := by
  obtain ⟨_, _, h3, h4, h5⟩ := applyLedOps_preserves_inv ops initDriver driverInv_init
  exact ⟨h3, h4, h5⟩

/-- Witness for claim C10 on a concrete operation sequence and id. -/
theorem c10_led_state_invariant_witness :
    read_nibble (applyLedOps [LedOp.single 5 99, LedOp.overall 3] initDriver).raw_led_data 5 =
      (applyLedOps [LedOp.single 5 99, LedOp.overall 3] initDriver).led_state 5 :=
  (c10_led_state_invariant [LedOp.single 5 99, LedOp.overall 3]).2.1 5 (by decide)

/-! ### Macro engine zone dispatch and key output (`macro_engine.py`)

`MacroState` carries the engine-owned `active_keys` set (modelled as a
duplicate-free list), the per-axis `axis_active` map and `gear_active` pair.
Key macros are modelled by their `keys` lists (the `press_ms` / `release_ms`
sleeps are timing only and scripted step-list macros are out of scope of the
zone transitions proved here). Emitted key transitions and published
`analog_zone` / `gear_zone` events are collected in an event list. -/

structure AnalogZone where
  zmin : Option Int
  zmax : Option Int
  action : Option String
  behavior : Option String
deriving DecidableEq

structure GearZone where
  values : Option (List Int)
  value : Option Int
  action : Option String
  behavior : Option String
deriving DecidableEq

structure MacroState where
  active_keys : List String
  axis_active : String → Option (Option String × String)
  gear_active : Option (Option String × String)

def initMacroState : MacroState :=
  { active_keys := [], axis_active := fun _ => none, gear_active := none }

inductive MEvent where
  | key (keyName : String) (down : Bool)
  | analogZone (axis : String) (value : Int) (action : Option String)
      (behavior : String) (state : String)
  | gearZone (gear : Int) (action : Option String) (behavior : String) (state : String)
deriving DecidableEq

/-- Python string truthiness of an optional action name (`if prev_action:`):
absent or empty means falsy. -/
def truthyStr : Option String → Bool
  | none => false
  | some s => !(s == "")

/-- `MacroEngine._resolve_macro`, restricted to its `keys` content: a configured
macro's key list, or the direct `KEY_*` fallback
`{"keys": [action_name], ...}`. -/
def resolve_keys (macros : String → Option (List String)) (action_name : String) :
    Option (List String) :=
  match macros action_name with
  | some ks => some ks
  | none => if action_name.startsWith "KEY_" then some [action_name] else none

/-- `MacroEngine._press_keys`: for each key not yet active, emit `down` and mark
it active; keys already active emit nothing. -/
def press_keys (st : MacroState) (keys : List String) : MacroState × List MEvent :=
  keys.foldl
    (fun acc k =>
      if k ∈ acc.1.active_keys then acc
      else ({ acc.1 with active_keys := acc.1.active_keys ++ [k] },
        acc.2 ++ [.key k true]))
    (st, [])

/-- `MacroEngine._release_keys`: for each key currently active, emit `up` and
unmark it; inactive keys are skipped. -/
def release_keys (st : MacroState) (keys : List String) : MacroState × List MEvent :=
  keys.foldl
    (fun acc k =>
      if k ∈ acc.1.active_keys then
        ({ acc.1 with active_keys := acc.1.active_keys.erase k },
          acc.2 ++ [.key k false])
      else acc)
    (st, [])

/-- `MacroEngine._run_tap` (sleeps elided): press all keys, then release them. -/
def run_tap (st : MacroState) (keys : List String) : MacroState × List MEvent :=
  if keys = [] then (st, [])
  else
    let r1 := press_keys st keys
    let r2 := release_keys r1.1 keys
    (r2.1, r1.2 ++ r2.2)

/-- `MacroEngine._run_hold_press`. -/
def run_hold_press (st : MacroState) (keys : List String) : MacroState × List MEvent :=
  if keys = [] then (st, []) else press_keys st keys

/-- `MacroEngine._run_hold_release`. -/
def run_hold_release (st : MacroState) (keys : List String) : MacroState × List MEvent :=
  if keys = [] then (st, []) else release_keys st keys

/-- First matching analog zone (zones with a missing bound are skipped);
defaults to `(None, "hold")` when nothing matches. -/
def find_analog_zone : List AnalogZone → Int → Option String × String
  | [], _ => (none, "hold")
  | z :: rest, v =>
    match z.zmin, z.zmax with
    | some mn, some mx =>
      if mn ≤ v ∧ v ≤ mx then (z.action, z.behavior.getD "hold")
      else find_analog_zone rest v
    | _, _ => find_analog_zone rest v

/-- First matching gear zone: a `values` list match wins, else a single `value`
match; defaults to `(None, "hold")`. -/
def find_gear_zone : List GearZone → Int → Option String × String
  | [], _ => (none, "hold")
  | z :: rest, gv =>
    match z.values with
    | some vs =>
      if gv ∈ vs then (z.action, z.behavior.getD "hold") else find_gear_zone rest gv
    | none =>
      match z.value with
      | some v =>
        if gv = v then (z.action, z.behavior.getD "hold") else find_gear_zone rest gv
      | none => find_gear_zone rest gv

/-- Body of `MacroEngine.handle_analogs` for one axis: on a change of winning
action, release the previous hold action and publish `exit`, invoke the new
action (tap runs once, anything else presses and holds) and publish `enter`,
then record the new `(action, behavior)` pair. -/
def handle_analog_axis (macros : String → Option (List String)) (st : MacroState)
    (axis : String) (zones : List AnalogZone) (value : Option Int) :
    MacroState × List MEvent :=
  match value with
  | none => (st, [])
  | some v =>
    let cur := find_analog_zone zones v
    let prev := (st.axis_active axis).getD (none, "hold")
    if cur.1 = prev.1 then (st, [])
    else
      let rexit :=
        if truthyStr prev.1 then
          let rel :=
            match resolve_keys macros (prev.1.getD "") with
            | some ks => if prev.2 = "hold" then run_hold_release st ks else (st, [])
            | none => (st, [])
          (rel.1, rel.2 ++ [.analogZone axis v prev.1 prev.2 "exit"])
        else (st, [])
      let renter :=
        if truthyStr cur.1 then
          let inv :=
            match resolve_keys macros (cur.1.getD "") with
            | some ks =>
              if cur.2 = "tap" then run_tap rexit.1 ks else run_hold_press rexit.1 ks
            | none => (rexit.1, [])
          (inv.1, inv.2 ++ [.analogZone axis v cur.1 cur.2 "enter"])
        else (rexit.1, [])
      ({ renter.1 with
          axis_active := fun a => if a = axis then some cur else renter.1.axis_active a },
        rexit.2 ++ renter.2)

/-- `MacroEngine.handle_gears`: in the source, the whole release/invoke/publish
block is indented inside the `current_action == prev_action` branch after its
early `return`, so it is unreachable; on a change of winning action the
function only records the new `(action, behavior)` pair, emitting no key
transitions and publishing no events. -/
def handle_gears (st : MacroState) (zones : List GearZone) (gear : Option Int) :
    MacroState × List MEvent :=
  match gear with
  | none => (st, [])
  | some gv =>
    let cur := find_gear_zone zones gv
    let prev := st.gear_active.getD (none, "hold")
    if cur.1 = prev.1 then (st, [])
    else ({ st with gear_active := some cur }, [])

/-! ### Scripted key steps (`MacroEngine._run_steps`, `press`/`down`/`up`) -/

inductive ScriptStep where
  | pressStep (key : String) (hold_ms : Int)
  | downStep (key : String)
  | upStep (key : String)
deriving DecidableEq

/-- One `press` / `down` / `up` step of `MacroEngine._run_steps`: each emits
directly through `_emit`, which never consults or updates `active_keys`
(`press` skips a falsy key name; `down` / `up` have no such check). -/
def script_step_eval (acc : MacroState × List MEvent) (s : ScriptStep) :
    MacroState × List MEvent :=
  match s with
  | .pressStep k _ => if k = "" then acc else (acc.1, acc.2 ++ [.key k true, .key k false])
  | .downStep k => (acc.1, acc.2 ++ [.key k true])
  | .upStep k => (acc.1, acc.2 ++ [.key k false])

def run_steps (st : MacroState) (steps : List ScriptStep) : MacroState × List MEvent :=
  steps.foldl script_step_eval (st, [])

theorem script_fold_state (steps : List ScriptStep) :
    ∀ acc : MacroState × List MEvent, (steps.foldl script_step_eval acc).1 = acc.1 := by
  induction steps with
  | nil => intro acc; rfl
  | cons s t ih =>
    intro acc
    rw [List.foldl_cons, ih]
    cases s with
    | pressStep k hold =>
      simp only [script_step_eval]
      split <;> rfl
    | downStep k => rfl
    | upStep k => rfl

/-! ### Claim theorems for zone dispatch and key steps -/

def c1GearZones : List GearZone :=
  [{ values := none, value := some 1, action := some "ZoneActionA", behavior := some "hold" }]

def c1AnalogZones : List AnalogZone :=
  [{ zmin := some 0, zmax := some 10, action := some "ZoneActionA", behavior := some "hold" }]

def c1Macros : String → Option (List String) := fun n =>
  if n = "ZoneActionA" then some ["KEY_A"] else none

/-- Claim C1 (code bug, gear side): entering the gear zone for gear value 1,
whose `hold` action maps to `KEY_A`, the gear handler records the new winning
action but emits no key press and publishes no `enter` event — the transition
block is unreachable in the source — whereas the analog handler on the
corresponding transition presses `KEY_A`, marks it active, and publishes the
`enter` event. -/
theorem c1_gear_zone_divergence :
    (handle_gears initMacroState c1GearZones (some 1)).1.gear_active =
      some (some "ZoneActionA", "hold") ∧
    (handle_gears initMacroState c1GearZones (some 1)).2 = [] ∧
    (handle_gears initMacroState c1GearZones (some 1)).1.active_keys = [] ∧
    (handle_analog_axis c1Macros initMacroState "rotation" c1AnalogZones (some 1)).2 =
      [.key "KEY_A" true, .analogZone "rotation" 1 (some "ZoneActionA") "hold" "enter"] ∧
    (handle_analog_axis c1Macros initMacroState "rotation" c1AnalogZones (some 1)).1.active_keys =
      ["KEY_A"] := by
  refine ⟨rfl, rfl, rfl, rfl, rfl⟩

def c2ActiveState : MacroState :=
  { initMacroState with active_keys := ["KEY_A"] }

/-- Counterexample to claim C2 as stated: a `down` step for `KEY_A`, already in
the active-key set, still emits a key-down event, and an `up` step for the
inactive `KEY_B` still emits a key-up event (neither is a no-op). -/
theorem c2_key_step_counterexample :
    "KEY_A" ∈ c2ActiveState.active_keys ∧
    (run_steps c2ActiveState [.downStep "KEY_A"]).2 = [.key "KEY_A" true] ∧
    (run_steps c2ActiveState [.downStep "KEY_A"]).2 ≠ [] ∧
    "KEY_B" ∉ c2ActiveState.active_keys ∧
    (run_steps c2ActiveState [.upStep "KEY_B"]).2 = [.key "KEY_B" false] ∧
    (run_steps c2ActiveState [.upStep "KEY_B"]).2 ≠ [] := by
  refine ⟨by decide, rfl, by decide, by decide, rfl, by decide⟩

/-- Claim C2 (amended): script key steps `press`/`down`/`up` bypass the
active-key set entirely — they always emit through the key sink (a press step
for a nonempty key emits down then up; down/up steps emit unconditionally) and
never change the engine state; the press/release de-duplication lives in
`_press_keys` / `_release_keys`, where pressing an already-active key emits
nothing and releasing an inactive key is a no-op. -/
theorem c2_key_steps_behavior :
    (∀ (st : MacroState) (steps : List ScriptStep), (run_steps st steps).1 = st) ∧
    (∀ (st : MacroState) (k : String) (hold : Int), k ≠ "" →
      (run_steps st [.pressStep k hold]).2 = [.key k true, .key k false]) ∧
    (∀ (st : MacroState) (k : String),
      (run_steps st [.downStep k]).2 = [.key k true]) ∧
    (∀ (st : MacroState) (k : String),
      (run_steps st [.upStep k]).2 = [.key k false]) ∧
    (∀ (st : MacroState) (k : String), k ∈ st.active_keys →
      press_keys st [k] = (st, [])) ∧
    (∀ (st : MacroState) (k : String), k ∉ st.active_keys →
      release_keys st [k] = (st, [])) := by
  refine ⟨?_, ?_, ?_, ?_, ?_, ?_⟩
  · intro st steps
    exact script_fold_state steps (st, [])
  · intro st k hold hk
    simp only [run_steps, List.foldl_cons, List.foldl_nil, script_step_eval,
      if_neg hk]
    rfl
  · intro st k
    rfl
  · intro st k
    rfl
  · intro st k hk
    simp only [press_keys, List.foldl_cons, List.foldl_nil, if_pos hk]
  · intro st k hk
    simp only [release_keys, List.foldl_cons, List.foldl_nil, if_neg hk]

/-- Witness for the amended claim C2 at concrete keys and states. -/
theorem c2_key_steps_behavior_witness :
    (run_steps c2ActiveState [.pressStep "KEY_X" 20]).2 =
      [.key "KEY_X" true, .key "KEY_X" false] ∧
    press_keys c2ActiveState ["KEY_A"] = (c2ActiveState, []) ∧
    release_keys c2ActiveState ["KEY_B"] = (c2ActiveState, []) :=
  ⟨c2_key_steps_behavior.2.1 c2ActiveState "KEY_X" 20 (by decide),
   c2_key_steps_behavior.2.2.2.2.1 c2ActiveState "KEY_A" (by decide),
   c2_key_steps_behavior.2.2.2.2.2 c2ActiveState "KEY_B" (by decide)⟩

/-! ### Vessel models (`vessel_models.py`)

`VesselState` mirrors `CoreVesselModel.state` plus the private edge-tracking
map `_control_state` (a dictionary defaulting to false). Each handler returns
the successor state together with the list of emitted semantic events
(`_emit`, which also mirrors into the input queue) and enqueued synthetic
events (`_queue_button` / `_queue_macro`). The mech model is taken with its
default symbolic `control_map`. -/

structure VesselState where
  power_state : String
  startup_state : String
  reactor_ready : Bool
  online : Bool
  control_state : String → Bool

inductive VEvent where
  | emitEv (eventType : String)
  | queueBtn (control : String) (pressed : Bool)
  | queueMacroEv (macroName : String)
deriving DecidableEq

/-- `CoreVesselModel.on_control_change`: a falsy control name or an unchanged
pressed value returns without touching state or emitting; otherwise the edge is
recorded and a `vessel_control` event emitted. -/
def core_on_control_change (st : VesselState) (control : String) (pressed : Bool) :
    VesselState × List VEvent :=
  if control = "" then (st, [])
  else if st.control_state control = pressed then (st, [])
  else
    ({ st with control_state := fun c => if c = control then pressed else st.control_state c },
      [.emitEv "vessel_control"])

/-- Default `MechVesselModel` symbolic control map. -/
def mech_map_control (s : String) : String :=
  if s = "hatch" then "CockpitHatch"
  else if s = "ignition" then "Ignition"
  else if s = "start" then "Start"
  else if s = "filter" then "ToggleFilterControl"
  else if s = "life_support" then "ToggleOxygenSupply"
  else if s = "coolant" then "ToggleFuelFlowRate"
  else if s = "buffer_material" then "ToggleBufferMaterial"
  else if s = "shielding" then "ToggleVTLocation"
  else s

def mechToggleNames : List String :=
  ["filter", "life_support", "coolant", "buffer_material", "shielding"]

/-- Sequencing of the straight-line branch blocks of
`MechVesselModel.on_control_change`: thread the state, concatenate events. -/
def step_seq (r : VesselState × List VEvent) (f : VesselState → VesselState × List VEvent) :
    VesselState × List VEvent :=
  ((f r.1).1, r.2 ++ (f r.1).2)

/-- Hatch close: from fully offline to capacitor / await-subsystems. -/
def mech_hatch_step (control : String) (pressed : Bool) (st : VesselState) :
    VesselState × List VEvent :=
  if control = mech_map_control "hatch" ∧ pressed = true ∧ st.power_state = "offline" then
    ({ st with power_state := "capacitor", startup_state := "await_subsystems" },
      [.emitEv "vessel_startup_begin"])
  else (st, [])

/-- Subsystem toggles: recompute `reactor_ready` from all five prerequisite
toggles; when all are on, move to `reactor_ready` and emit. -/
def mech_toggle_step (control : String) (st : VesselState) : VesselState × List VEvent :=
  if control ∈ mechToggleNames.map mech_map_control then
    let ready := mechToggleNames.all fun n => st.control_state (mech_map_control n)
    if ready then
      ({ st with reactor_ready := ready, startup_state := "reactor_ready" },
        [.emitEv "vessel_reactor_ready"])
    else ({ st with reactor_ready := ready }, [])
  else (st, [])

/-- Ignition: arm only when `reactor_ready`; optionally enqueue a synthetic
Start press/release pair. -/
def mech_ignition_step (auto_queue_start : Bool) (control : String) (pressed : Bool)
    (st : VesselState) : VesselState × List VEvent :=
  if control = mech_map_control "ignition" ∧ pressed = true ∧ st.reactor_ready = true then
    ({ st with startup_state := "ignition_armed" },
      [.emitEv "vessel_ignition_armed"] ++
        (if auto_queue_start then
          [.queueBtn (mech_map_control "start") true,
           .queueBtn (mech_map_control "start") false]
        else []))
  else (st, [])

/-- Start: commit to online/main reactor only when `reactor_ready`; optionally
enqueue the powerup macro. -/
def mech_start_step (auto_queue_powerup : Bool) (control : String) (pressed : Bool)
    (st : VesselState) : VesselState × List VEvent :=
  if control = mech_map_control "start" ∧ pressed = true ∧ st.reactor_ready = true then
    ({ st with power_state := "main_reactor", startup_state := "online", online := true },
      [.emitEv "vessel_online"] ++
        (if auto_queue_powerup then [.queueMacroEv "powerup"] else []))
  else (st, [])

/-- `MechVesselModel.on_control_change`: the base handler runs first (with its
duplicate suppression), then the four mech transition blocks run
unconditionally in source order. -/
def mech_on_control_change (auto_queue_start auto_queue_powerup : Bool)
    (st0 : VesselState) (control : String) (pressed : Bool) :
    VesselState × List VEvent :=
  step_seq (step_seq (step_seq (step_seq
    (core_on_control_change st0 control pressed)
    (mech_hatch_step control pressed))
    (mech_toggle_step control))
    (mech_ignition_step auto_queue_start control pressed))
    (mech_start_step auto_queue_powerup control pressed)

/-- Initial `MechVesselModel` state (constructor defaults: offline, awaiting
the hatch, reactor not ready). -/
def mechInit : VesselState :=
  { power_state := "offline", startup_state := "await_hatch",
    reactor_ready := false, online := false, control_state := fun _ => false }

/-- Fold a sequence of `(control, pressed)` edge events through the mech model
with the default configuration (both auto-queue flags off). -/
def mech_run (events : List (String × Bool)) : VesselState :=
  events.foldl (fun st e => (mech_on_control_change false false st e.1 e.2).1) mechInit

/-- The full mech startup sequence: hatch, all five subsystem toggles, then
ignition and start. -/
def c6Seq : List (String × Bool) :=
  [("CockpitHatch", true), ("ToggleFilterControl", true), ("ToggleOxygenSupply", true),
   ("ToggleFuelFlowRate", true), ("ToggleBufferMaterial", true), ("ToggleVTLocation", true),
   ("Ignition", true), ("Start", true)]

/-- Invariant for a run in which the prerequisite toggle `t` is never on:
its tracked state remains false, the reactor is never ready, and the startup
state never reaches arming or online. -/
def C6Inv (t : String) (st : VesselState) : Prop :=
  st.control_state (mech_map_control t) = false ∧
  st.reactor_ready = false ∧
  st.startup_state ≠ "ignition_armed" ∧
  st.startup_state ≠ "online"

theorem c6inv_core (t : String) (st : VesselState) (c : String) (p : Bool)
    (hev : ¬(c = mech_map_control t ∧ p = true)) (h : C6Inv t st) :
    C6Inv t (core_on_control_change st c p).1 := by
  unfold core_on_control_change
  split
  · exact h
  · split
    · exact h
    · obtain ⟨h1, h2, h3, h4⟩ := h
      refine ⟨?_, h2, h3, h4⟩
      show (if mech_map_control t = c then p else st.control_state (mech_map_control t)) = false
      split
      · rename_i hc
        cases p with
        | false => rfl
        | true => exact absurd ⟨hc.symm, rfl⟩ hev
      · exact h1

theorem c6inv_hatch (t c : String) (p : Bool) (st : VesselState) (h : C6Inv t st) :
    C6Inv t (mech_hatch_step c p st).1 := by
  obtain ⟨h1, h2, h3, h4⟩ := h
  unfold mech_hatch_step
  split
  · exact ⟨h1, h2,
      by show ("await_subsystems" : String) ≠ "ignition_armed"; decide,
      by show ("await_subsystems" : String) ≠ "online"; decide⟩
  · exact ⟨h1, h2, h3, h4⟩

theorem c6inv_toggle (t : String) (ht : t ∈ mechToggleNames) (c : String)
    (st : VesselState) (h : C6Inv t st) : C6Inv t (mech_toggle_step c st).1 := by
  obtain ⟨h1, h2, h3, h4⟩ := h
  simp only [mech_toggle_step]
  split
  · have hready :
        (mechToggleNames.all fun n => st.control_state (mech_map_control n)) = false := by
      rw [List.all_eq_false]
      refine ⟨t, ht, ?_⟩
      rw [h1]
      exact Bool.false_ne_true
    rw [hready]
    simp only [Bool.false_eq_true, if_false]
    exact ⟨h1, rfl, h3, h4⟩
  · exact ⟨h1, h2, h3, h4⟩

theorem c6inv_ignition (t : String) (aqs : Bool) (c : String) (p : Bool)
    (st : VesselState) (h : C6Inv t st) :
    C6Inv t (mech_ignition_step aqs c p st).1 := by
  obtain ⟨h1, h2, h3, h4⟩ := h
  unfold mech_ignition_step
  split
  · rename_i hcond
    rw [h2] at hcond
    exact absurd hcond.2.2 (by decide)
  · exact ⟨h1, h2, h3, h4⟩

theorem c6inv_start_commit (t : String) (aqp : Bool) (c : String) (p : Bool)
    (st : VesselState) (h : C6Inv t st) :
    C6Inv t (mech_start_step aqp c p st).1 := by
  obtain ⟨h1, h2, h3, h4⟩ := h
  unfold mech_start_step
  split
  · rename_i hcond
    rw [h2] at hcond
    exact absurd hcond.2.2 (by decide)
  · exact ⟨h1, h2, h3, h4⟩

theorem c6inv_step (t : String) (ht : t ∈ mechToggleNames) (st : VesselState)
    (c : String) (p : Bool) (hev : ¬(c = mech_map_control t ∧ p = true))
    (h : C6Inv t st) :
    C6Inv t (mech_on_control_change false false st c p).1 := by
  unfold mech_on_control_change step_seq
  exact c6inv_start_commit t false c p _
    (c6inv_ignition t false c p _
      (c6inv_toggle t ht c _
        (c6inv_hatch t c p _
          (c6inv_core t st c p hev h))))

theorem c6inv_fold (t : String) (ht : t ∈ mechToggleNames) :
    ∀ (events : List (String × Bool)) (st : VesselState),
      (∀ e ∈ events, ¬(e.1 = mech_map_control t ∧ e.2 = true)) → C6Inv t st →
      C6Inv t
        (events.foldl (fun st e => (mech_on_control_change false false st e.1 e.2).1) st)
  | [], _, _, h => h
  | e :: rest, st, hev, h =>
    c6inv_fold t ht rest _ (fun x hx => hev x (List.mem_cons_of_mem _ hx))
      (c6inv_step t ht st e.1 e.2 (hev e (List.mem_cons_self _ _)) h)

theorem c6inv_mechInit (t : String) : C6Inv t mechInit :=
  ⟨rfl, rfl, by decide, by decide⟩

/-- Claim C6: the mech startup sequence hatch-press, all five prerequisite
toggles on, ignition-press, start-press drives `startup_state` through
`await_subsystems`, `reactor_ready`, `ignition_armed`, `online` in exactly that
order; and in every run in which some prerequisite toggle is never on,
`reactor_ready` stays false and the startup state never reaches
`ignition_armed` nor `online`. -/
theorem c6_mech_startup_sequence :
    ((mech_run (c6Seq.take 0)).startup_state = "await_hatch" ∧
     (mech_run (c6Seq.take 1)).startup_state = "await_subsystems" ∧
     (mech_run (c6Seq.take 2)).startup_state = "await_subsystems" ∧
     (mech_run (c6Seq.take 3)).startup_state = "await_subsystems" ∧
     (mech_run (c6Seq.take 4)).startup_state = "await_subsystems" ∧
     (mech_run (c6Seq.take 5)).startup_state = "await_subsystems" ∧
     (mech_run (c6Seq.take 6)).startup_state = "reactor_ready" ∧
     (mech_run (c6Seq.take 7)).startup_state = "ignition_armed" ∧
     (mech_run c6Seq).startup_state = "online") ∧
    (∀ (events : List (String × Bool)) (t : String), t ∈ mechToggleNames →
      (∀ e ∈ events, ¬(e.1 = mech_map_control t ∧ e.2 = true)) →
      (mech_run events).reactor_ready = false ∧
      (mech_run events).startup_state ≠ "ignition_armed" ∧
      (mech_run events).startup_state ≠ "online") := by
  constructor
  · exact ⟨rfl, rfl, rfl, rfl, rfl, rfl, rfl, rfl, rfl⟩
  · intro events t ht hev
    obtain ⟨_, h2, h3, h4⟩ := c6inv_fold t ht events mechInit hev (c6inv_mechInit t)
    exact ⟨h2, h3, h4⟩

/-- Witness for claim C6: an ignition press with the filter toggle never on
does not arm ignition. -/
theorem c6_mech_startup_sequence_witness :
    (mech_run [("Ignition", true)]).reactor_ready = false ∧
    (mech_run [("Ignition", true)]).startup_state ≠ "ignition_armed" ∧
    (mech_run [("Ignition", true)]).startup_state ≠ "online" :=
  c6_mech_startup_sequence.2 [("Ignition", true)] "filter" (by decide) (by decide)

/-- Counterexample to claim C7 as stated: after the mech model reaches
`ignition_armed`, a duplicate toggle call (same pressed value as before, so no
edge) is not suppressed — the variant logic reruns, resetting `startup_state`
to `reactor_ready` and re-emitting `vessel_reactor_ready`. -/
theorem c7_duplicate_call_counterexample :
    (mech_run (c6Seq.take 7)).control_state "ToggleFilterControl" = true ∧
    (mech_run (c6Seq.take 7)).startup_state = "ignition_armed" ∧
    (mech_on_control_change false false (mech_run (c6Seq.take 7))
      "ToggleFilterControl" true).1.startup_state = "reactor_ready" ∧
    (mech_on_control_change false false (mech_run (c6Seq.take 7))
      "ToggleFilterControl" true).2 = [.emitEv "vessel_reactor_ready"] := by
  refine ⟨rfl, rfl, rfl, rfl⟩

/-- Claim C7 (amended): duplicate suppression is a property of the base
`CoreVesselModel` handler alone — a call repeating the control's tracked
pressed value leaves the state unchanged and emits and enqueues nothing —
while variant subclasses rerun their transition logic after the suppressed
base call. -/
theorem c7_core_duplicate_suppressed (st : VesselState) (control : String)
    (pressed : Bool) (h : st.control_state control = pressed) :
    core_on_control_change st control pressed = (st, []) := by
  by_cases hc : control = ""
  · unfold core_on_control_change
    rw [if_pos hc]
  · unfold core_on_control_change
    rw [if_neg hc, if_pos h]

/-- Witness for the amended claim C7 at a concrete duplicate call. -/
theorem c7_core_duplicate_suppressed_witness :
    core_on_control_change mechInit "Ignition" false = (mechInit, []) :=
  c7_core_duplicate_suppressed mechInit "Ignition" false rfl

/-! ### Input event queue (`input_matrix.py`, `InputMatrix`)

The `collections.deque(maxlen=...)` with `maxlen = max(1, int(max_events))`
keeps the most recent `maxlen` entries, discarding from the left on overflow.
`_push` stamps each record with the current time, passed here explicitly. -/

inductive QEvent where
  | button (control : String) (pressed : Bool) (source : String)
      (payload : List (String × String)) (timestamp_ms : Nat)
  | macroReq (macroName : String) (source : String)
      (payload : List (String × String)) (timestamp_ms : Nat)
  | generic (eventName : String) (source : String)
      (payload : List (String × String)) (timestamp_ms : Nat)
deriving DecidableEq

structure QueueState where
  maxEvents : Nat
  events : List QEvent
deriving DecidableEq

/-- `InputMatrix.__init__`: `deque(maxlen=max(1, int(max_events)))`. -/
def mk_input_matrix (max_events : Int) : QueueState :=
  { maxEvents := max 1 max_events.toNat, events := [] }

/-- `InputMatrix._push`: append, letting the deque discard the oldest entries
beyond `maxlen`. -/
def queue_push (q : QueueState) (e : QEvent) : QueueState :=
  { q with events := (q.events ++ [e]).drop ((q.events ++ [e]).length - q.maxEvents) }

/-- `InputMatrix.queue_button`: a falsy control name is ignored. -/
def queue_button (q : QueueState) (control : String) (pressed : Bool)
    (source : String) (payload : List (String × String)) (now_ms : Nat) : QueueState :=
  if control = "" then q
  else queue_push q (.button control pressed source payload now_ms)

/-- `InputMatrix.queue_macro`: a falsy macro name is ignored. -/
def queue_macro_req (q : QueueState) (macroName : String)
    (source : String) (payload : List (String × String)) (now_ms : Nat) : QueueState :=
  if macroName = "" then q
  else queue_push q (.macroReq macroName source payload now_ms)

/-- `InputMatrix.queue_event`: a falsy event name is ignored. -/
def queue_event (q : QueueState) (eventName : String)
    (source : String) (payload : List (String × String)) (now_ms : Nat) : QueueState :=
  if eventName = "" then q
  else queue_push q (.generic eventName source payload now_ms)

/-- `InputMatrix.drain`: return all queued events and clear the queue. -/
def queue_drain (q : QueueState) : List QEvent × QueueState :=
  (q.events, { q with events := [] })

/-- Claim C8: the input event queue is a bounded FIFO of capacity at least one
(sub-one configurations are raised to one); pushes append the timestamped
record, dropping the oldest entry when full; with capacity two, three enqueues
retain only the last two; `drain` returns everything and empties the queue, so
a drain directly after a drain returns the empty list. -/
theorem c8_input_queue_fifo :
    (∀ max_events : Int, 1 ≤ (mk_input_matrix max_events).maxEvents) ∧
    (∀ max_events : Int, max_events ≤ 0 → (mk_input_matrix max_events).maxEvents = 1) ∧
    (∀ (q : QueueState) (e : QEvent), 1 ≤ q.maxEvents →
      q.events.length ≤ q.maxEvents →
      (queue_push q e).events =
        if q.events.length < q.maxEvents then q.events ++ [e]
        else q.events.tail ++ [e]) ∧
    ((queue_event
        (queue_macro_req
          (queue_button (mk_input_matrix 2) "Start" true "automation" [] 100)
          "powerup" "macro" [] 101)
        "vessel_online" "vessel:mech" [] 102).events =
      [.macroReq "powerup" "macro" [] 101,
       .generic "vessel_online" "vessel:mech" [] 102]) ∧
    (∀ q : QueueState,
      (queue_drain q).1 = q.events ∧
      (queue_drain q).2.events = [] ∧
      (queue_drain (queue_drain q).2).1 = []) := by
  refine ⟨?_, ?_, ?_, ?_, ?_⟩
  · intro m
    exact Nat.le_max_left 1 m.toNat
  · intro m hm
    unfold mk_input_matrix
    simp only
    omega
  · intro q e hmax hlen
    unfold queue_push
    by_cases hfull : q.events.length < q.maxEvents
    · rw [if_pos hfull]
      simp only [List.length_append, List.length_cons, List.length_nil]
      have hz : q.events.length + 1 - q.maxEvents = 0 := by omega
      rw [hz, List.drop_zero]
    · rw [if_neg hfull]
      have hle : q.events.length = q.maxEvents := by omega
      simp only [List.length_append, List.length_cons, List.length_nil]
      have hone : q.events.length + 1 - q.maxEvents = 1 := by omega
      rw [hone]
      cases hq : q.events with
      | nil =>
        rw [hq] at hle
        simp at hle
        omega
      | cons a t => simp
  · rfl
  · intro q
    exact ⟨rfl, rfl, rfl⟩

/-- Witness for claim C8 at a concrete full queue. -/
theorem c8_input_queue_fifo_witness :
    (queue_push
      { maxEvents := 2,
        events := [.generic "e1" "s" [] 1, .generic "e2" "s" [] 2] }
      (.generic "e3" "s" [] 3)).events =
      [.generic "e2" "s" [] 2, .generic "e3" "s" [] 3] := by
  have h := c8_input_queue_fifo.2.2.1
    { maxEvents := 2, events := [.generic "e1" "s" [] 1, .generic "e2" "s" [] 2] }
    (.generic "e3" "s" [] 3) (by decide) (by decide)
  rw [h]
  rfl

/-! ### Sandboxed expression evaluator (`MacroEngine._eval_node`)

Values are the Python scalars the evaluator produces (`None`, bool, number,
string; numeric values are modelled on integers). The environment abstracts
the engine lookups each allow-listed call performs (`get_button_state` through
`button_name_to_index.get`, `get_logical_state`, the LED-state lookup, the
variable store, `last_values`, `self.layer`, and the monotonic clock), each as
a function of the argument value. Evaluation returns the resulting value
together with the preorder trace of every AST node evaluated, making operand
evaluation order explicit. -/

inductive PyVal where
  | vnone
  | vbool (b : Bool)
  | vnum (n : Int)
  | vstr (s : String)
deriving DecidableEq

/-- Python truthiness of the modelled scalars. -/
def PyVal.truthy : PyVal → Bool
  | .vnone => false
  | .vbool b => b
  | .vnum n => !(n == 0)
  | .vstr s => !(s == "")

inductive CompOp where
  | ceq | cne | cgt | cge | clt | cle
deriving DecidableEq

inductive Expr where
  | boolAnd (values : List Expr)
  | boolOr (values : List Expr)
  | notOp (operand : Expr)
  | compare (left : Expr) (rest : List (CompOp × Expr))
  | nameRef (id : String)
  | lit (v : PyVal)
  | call (func : String) (args : List Expr)

/-- Python `==` on the modelled scalars (bools compare equal to their numeric
value, as in `True == 1`). -/
def py_eq : PyVal → PyVal → Bool
  | .vnone, .vnone => true
  | .vbool a, .vbool b => a == b
  | .vnum a, .vnum b => a == b
  | .vstr a, .vstr b => a == b
  | .vbool a, .vnum b => (if a then (1 : Int) else 0) == b
  | .vnum a, .vbool b => a == (if b then (1 : Int) else 0)
  | _, _ => false

/-- Python `<` on numbers, bools-as-numbers and strings. An ordered comparison
between other value kinds raises `TypeError` in the source and is modelled as
false; the properties below never reach that case. -/
def py_lt : PyVal → PyVal → Bool
  | .vnum a, .vnum b => a < b
  | .vbool a, .vnum b => (if a then (1 : Int) else 0) < b
  | .vnum a, .vbool b => a < (if b then (1 : Int) else 0)
  | .vbool a, .vbool b => (if a then (1 : Int) else 0) < (if b then (1 : Int) else 0)
  | .vstr a, .vstr b => a < b
  | _, _ => false

/-- Whether one comparison link of a `Compare` chain passes. -/
def comp_holds (op : CompOp) (l r : PyVal) : Bool :=
  match op with
  | .ceq => py_eq l r
  | .cne => !(py_eq l r)
  | .cgt => py_lt r l
  | .cge => py_lt r l || py_eq l r
  | .clt => py_lt l r
  | .cle => py_lt l r || py_eq l r

/-- `float(args[0])` of the `num` call, on the modelled scalars (float parsing
modelled on integer literals; a failing conversion returns `None`). -/
def py_num : PyVal → PyVal
  | .vnum n => .vnum n
  | .vbool b => .vnum (if b then 1 else 0)
  | .vstr s => match s.toInt? with | some n => .vnum n | none => .vnone
  | .vnone => .vnone

structure EvalEnv where
  pressedState : PyVal → Bool
  logicalState : PyVal → Bool
  ledOn : PyVal → Bool
  vars : PyVal → Option PyVal
  lastValues : PyVal → Option PyVal
  layer : Int
  timeMs : Int

/-- Result value of an allow-listed call, given its evaluated argument values
(`return False` for anything else, a call with missing arguments included). -/
def call_value (env : EvalEnv) (func : String) (vals : List PyVal) : PyVal :=
  match func, vals with
  | "pressed", a :: _ => .vbool (env.pressedState a)
  | "toggle_on", a :: _ => .vbool (env.pressedState a)
  | "logical_on", a :: _ => .vbool (env.logicalState a)
  | "led_on", a :: _ => .vbool (env.ledOn a)
  | "var", a :: _ => (env.vars a).getD .vnone
  | "analog", a :: _ => (env.lastValues a).getD .vnone
  | "value", a :: _ => (env.lastValues a).getD .vnone
  | "time_ms", _ => .vnum env.timeMs
  | "is_set", a :: _ =>
    .vbool (match env.vars a with | some v => !(v == .vnone) | none => false)
  | "is_none", a :: _ =>
    .vbool (match env.vars a with | some v => v == .vnone | none => true)
  | "num", a :: _ => py_num a
  | _, _ => .vbool false

/-- Value of a bare identifier (`gear`, `tuner`, `layer` are special; anything
else falls back to the variable store). -/
def name_value (env : EvalEnv) (id : String) : PyVal :=
  if id = "gear" then (env.lastValues (.vstr "gear")).getD .vnone
  else if id = "tuner" then (env.lastValues (.vstr "tuner")).getD .vnone
  else if id = "layer" then .vnum env.layer
  else (env.vars (.vstr id)).getD .vnone

mutual

/-- `MacroEngine._eval_node`, instrumented with the preorder list of evaluated
nodes. Boolean `and`/`or` evaluate every operand eagerly via
`[self._eval_node(v) for v in node.values]` before combining with
`all`/`any`. -/
def eval_node (env : EvalEnv) : Expr → PyVal × List Expr
  | .boolAnd values =>
    let r := eval_node_list env values
    (.vbool (r.1.all PyVal.truthy), .boolAnd values :: r.2)
  | .boolOr values =>
    let r := eval_node_list env values
    (.vbool (r.1.any PyVal.truthy), .boolOr values :: r.2)
  | .notOp operand =>
    let r := eval_node env operand
    (.vbool (!r.1.truthy), .notOp operand :: r.2)
  | .compare left rest =>
    let rl := eval_node env left
    let rr := eval_compare_rest env rl.1 rest
    (.vbool rr.1, .compare left rest :: rl.2 ++ rr.2)
  | .nameRef id => (name_value env id, [.nameRef id])
  | .lit v => (v, [.lit v])
  | .call func args =>
    let r := eval_node_list env args
    (call_value env func r.1, .call func args :: r.2)

/-- The comparator loop of the `Compare` branch: comparators are evaluated one
at a time and the loop returns early (without evaluating the rest) on a `None`
operand or a failing link. -/
def eval_compare_rest (env : EvalEnv) (left : PyVal) :
    List (CompOp × Expr) → Bool × List Expr
  | [] => (true, [])
  | (op, comp) :: rest =>
    let r := eval_node env comp
    if left == .vnone || r.1 == .vnone then (false, r.2)
    else if comp_holds op left r.1 then
      let rr := eval_compare_rest env r.1 rest
      (rr.1, r.2 ++ rr.2)
    else (false, r.2)

/-- The eager list comprehension `[self._eval_node(v) for v in node.values]`:
all elements evaluated, left to right. -/
def eval_node_list (env : EvalEnv) : List Expr → List PyVal × List Expr
  | [] => ([], [])
  | e :: rest =>
    let r := eval_node env e
    let rr := eval_node_list env rest
    (r.1 :: rr.1, r.2 ++ rr.2)

end

theorem eval_node_list_eq (env : EvalEnv) (l : List Expr) :
    eval_node_list env l =
      (l.map fun e => (eval_node env e).1,
       (l.map fun e => (eval_node env e).2).flatten) := by
  induction l with
  | nil => rfl
  | cons e rest ih =>
    simp only [eval_node_list, ih, List.map_cons, List.flatten_cons]

def c9PressedX : Expr := .call "pressed" [.lit (.vstr "X")]

def c9PressedY : Expr := .call "pressed" [.lit (.vstr "Y")]

/-- Environment in which no control is pressed. -/
def c9EnvAllFalse : EvalEnv :=
  { pressedState := fun _ => false, logicalState := fun _ => false,
    ledOn := fun _ => false, vars := fun _ => none,
    lastValues := fun _ => none, layer := 0, timeMs := 0 }

/-- Claim C9: boolean `and`/`or` nodes evaluate every operand eagerly, each
exactly once in list order (the evaluation trace of the node is its head
followed by the concatenation of every operand's trace, combined with
`all`/`any` only afterwards); in particular `pressed("X") and pressed("Y")`
evaluates `pressed("Y")` even when `pressed("X")` is already false. -/
theorem c9_bool_ops_eager :
    (∀ (env : EvalEnv) (values : List Expr),
      eval_node env (.boolAnd values) =
        (.vbool ((values.map fun e => (eval_node env e).1).all PyVal.truthy),
         .boolAnd values :: (values.map fun e => (eval_node env e).2).flatten) ∧
      eval_node env (.boolOr values) =
        (.vbool ((values.map fun e => (eval_node env e).1).any PyVal.truthy),
         .boolOr values :: (values.map fun e => (eval_node env e).2).flatten)) ∧
    ((eval_node c9EnvAllFalse c9PressedX).1 = .vbool false ∧
     eval_node c9EnvAllFalse (.boolAnd [c9PressedX, c9PressedY]) =
       (.vbool false,
        [.boolAnd [c9PressedX, c9PressedY],
         c9PressedX, .lit (.vstr "X"), c9PressedY, .lit (.vstr "Y")])) := by
  constructor
  · intro env values
    constructor
    · simp only [eval_node, eval_node_list_eq]
    · simp only [eval_node, eval_node_list_eq]
  · constructor
    · simp only [c9PressedX, eval_node, eval_node_list, call_value, c9EnvAllFalse]
    · simp only [c9PressedX, c9PressedY, eval_node, eval_node_list, call_value,
        c9EnvAllFalse, PyVal.truthy, List.all_cons, List.all_nil]
      rfl

end PySBC
